import Mathlib

/-!
Shallow embedding of `src/file_encoder.rs` (oculante's file encoder module):
the `CompressionLevel` and `FileEncoder` enums, extension matching
(`matching_variant`, `ext`), and the durable `save` protocol
(temp file, buffered encode, scope-end flush, fsync, atomic rename).
-/

namespace FileEncoderSpec

/-- `CompressionLevel` enum from the source (Best, Default, Fast);
`Default` is the `#[default]` variant. -/
inductive CompressionLevel where
  | Best
  | Default
  | Fast
deriving DecidableEq, Repr

/-- `FileEncoder` enum from the source: `Jpg { quality: u32 }`,
`Png { compressionlevel: CompressionLevel }`, `Bmp`, `WebP`.
The u32 quality is modelled as `Nat` (casts take `% 2^w` explicitly). -/
inductive FileEncoder where
  | Jpg (quality : Nat)
  | Png (compressionlevel : CompressionLevel)
  | Bmp
  | WebP
deriving DecidableEq, Repr

/-- The strum-derived `Display` of a `FileEncoder` value: the variant name. -/
def FileEncoder.displayString : FileEncoder → String
  | .Jpg _ => "Jpg"
  | .Png _ => "Png"
  | .Bmp => "Bmp"
  | .WebP => "WebP"

/-- ASCII lowercasing of a string, modelling Rust's `str::to_lowercase`
(the strings in this module are ASCII, where the two agree). -/
def toLowerStr (s : String) : String := ⟨s.data.map Char.toLower⟩

/-- Left-to-right, non-overlapping replacement of the substring "jpeg" by
"jpg", modelling Rust's `str::replace("jpeg", "jpg")` on the char list. -/
def replaceJpegChars : List Char → List Char
  | 'j' :: 'p' :: 'e' :: 'g' :: rest => 'j' :: 'p' :: 'g' :: replaceJpegChars rest
  | c :: rest => c :: replaceJpegChars rest
  | [] => []

/-- String wrapper for `replaceJpegChars`. -/
def replaceJpeg (s : String) : String := ⟨replaceJpegChars s.data⟩

/-- `FileEncoder::ext`: `self.to_string().to_lowercase()`. -/
def FileEncoder.ext (v : FileEncoder) : String := toLowerStr v.displayString

/-- A filesystem path, reduced to the two attributes this module reads:
`Path::parent()` (`none` when Rust's `parent()` returns `None`) and
`Path::extension()` (`none` when the path has no extension). -/
structure FilePath where
  parent : Option String
  extension : Option String
deriving DecidableEq, Repr

/-- The normalized extension computed at the top of `matching_variant`:
`path.extension().map(to_string).unwrap_or_default().to_lowercase().replace("jpeg", "jpg")`. -/
def normExt (path : FilePath) : String :=
  replaceJpeg (toLowerStr (path.extension.getD ""))

/-- `FileEncoder::matching_variant`: first candidate whose `ext()` equals the
normalized extension; `Png { compressionlevel: Default }` when none does. -/
def FileEncoder.matching_variant (path : FilePath) (variants : List FileEncoder) :
    FileEncoder :=
  match variants.find? (fun v => v.ext == normExt path) with
  | some v => v
  | none => .Png .Default

/-- `image::ExtendedColorType` values this module can pass to a codec
(the Jpg arm always passes `Rgb8`; the Png arm passes `image.color().into()`). -/
inductive ExtendedColorType where
  | L8
  | La8
  | Rgb8
  | Rgba8
  | L16
  | La16
  | Rgb16
  | Rgba16
deriving DecidableEq, Repr

/-- An RGBA pixel (four 8-bit channels, each a byte value). -/
structure Rgba where
  r : Nat
  g : Nat
  b : Nat
  a : Nat
deriving DecidableEq, Repr

/-- `image::DynamicImage`, reduced to the attributes `save` reads:
dimensions (`width()`, `height()`), logical RGBA pixel content (backing
`to_rgb8`), the native color type (`color()`), and the raw native byte
buffer (`as_bytes()`). -/
structure DynamicImage where
  width : Nat
  height : Nat
  pixels : List Rgba
  color : ExtendedColorType
  bytes : List Nat
deriving DecidableEq, Repr

/-- An 8-bit RGB image buffer (`image::RgbImage`): dimensions plus the raw
interleaved byte data returned by `as_raw()`. -/
structure RgbImage where
  width : Nat
  height : Nat
  data : List Nat
deriving DecidableEq, Repr

/-- `DynamicImage::to_rgb8` from the image crate: same dimensions, pixel
data converted to interleaved 8-bit RGB with the alpha channel dropped. -/
def DynamicImage.to_rgb8 (img : DynamicImage) : RgbImage :=
  { width := img.width
    height := img.height
    data := img.pixels.flatMap (fun p => [p.r % 256, p.g % 256, p.b % 256]) }

/-- `image::codecs::png::CompressionType` values used by the Png arm. -/
inductive CompressionType where
  | Best
  | Default
  | Fast
deriving DecidableEq, Repr

/-- `image::codecs::png::FilterType`; `FilterType::default()` is `Adaptive`. -/
inductive FilterType where
  | NoFilter
  | Sub
  | Up
  | Avg
  | Paeth
  | Adaptive
deriving DecidableEq, Repr

/-- `FilterType::default()`. -/
def FilterType.default : FilterType := .Adaptive

/-- The complete encoded file a codec produces, recorded as the exact
arguments `save` hands to the codec layer (the codecs themselves are
external):
- Jpg arm: `JpegEncoder::new_with_quality(w, quality as u8)` then
  `write_image(rgb.as_raw(), rgb.width(), rgb.height(), Rgb8)`;
- Png arm: `PngEncoder::new_with_quality(w, compression, filter)` then
  `write_image(image.as_bytes(), image.width(), image.height(), image.color().into())`;
- Bmp/WebP arms: `image.write_to(w, format)`. -/
inductive EncodedFile where
  | jpeg (quality : Nat) (data : List Nat) (width height : Nat)
      (colorType : ExtendedColorType)
  | png (compression : CompressionType) (filter : FilterType) (data : List Nat)
      (width height : Nat) (colorType : ExtendedColorType)
  | bmp (image : DynamicImage)
  | webp (image : DynamicImage)
deriving DecidableEq, Repr

/-- The encoding `save`'s dispatch produces for a variant and image,
mirroring the `match self` in `FileEncoder::save`. The u32→u8 cast
`*quality as u8` is `% 2^8`. -/
def encodeOutput : FileEncoder → DynamicImage → EncodedFile
  | .Jpg quality, image =>
      let rgb_image := image.to_rgb8
      .jpeg (quality % 256) rgb_image.data rgb_image.width rgb_image.height .Rgb8
  | .Png compressionlevel, image =>
      let compression : CompressionType :=
        match compressionlevel with
        | .Best => .Best
        | .Default => .Default
        | .Fast => .Fast
      .png compression FilterType.default image.bytes image.width image.height
        image.color
  | .Bmp, image => .bmp image
  | .WebP, image => .webp image

/-- The fallible phases of `save`. `scopeEndFlush` is the implicit
`BufWriter` flush when the inner block ends (the `// Buffer flushes here`
point). -/
inductive Step where
  | createTemp
  | encode
  | scopeEndFlush
  | sync
  | persist
deriving DecidableEq, Repr

/-- Outcome of each external operation `save` performs, so every
interleaving of failures is a concrete input. `flushOk` is whether the
implicit scope-end flush of the `BufWriter` succeeds. -/
structure Env where
  tempOk : Bool
  encodeOk : Bool
  flushOk : Bool
  syncOk : Bool
  persistOk : Bool
deriving DecidableEq, Repr

/-- The environment in which every external operation succeeds. -/
def Env.allOk : Env := ⟨true, true, true, true, true⟩

/-- The errors `save` can return. `tempFileCreation`, `sync` and `persist`
carry the `.context(...)` strings from the source; `encode` is the codec
error propagated bare by `?`. -/
inductive SaveError where
  | tempFileCreation
  | encode
  | sync
  | persist
deriving DecidableEq, Repr

/-- The `.context(...)` string attached to each error site in `save`
(the encode arms attach none and propagate the codec's own error). -/
def SaveError.context : SaveError → Option String
  | .tempFileCreation => some "Failed to create temporary file"
  | .encode => none
  | .sync => some "Failed to sync to disk"
  | .persist => some "Failed to persist file"

/-- A file installed at the destination by the atomic rename: the
encoding the codec phase produced, plus whether all of its bytes reached
the OS file before the rename. `complete = false` models the file being
truncated because the scope-end `BufWriter` drop-flush failed (its error
is discarded by `Drop`, so the tail bytes held in the buffer are lost
while `save` carries on). -/
structure WrittenFile where
  payload : EncodedFile
  complete : Bool
deriving DecidableEq, Repr

instance : DecidableEq (Except SaveError Unit)
  | .ok (), .ok () => isTrue rfl
  | .ok (), .error _ => isFalse (by simp)
  | .error _, .ok () => isFalse (by simp)
  | .error a, .error b =>
      if h : a = b then isTrue (by rw [h]) else isFalse (by simp [h])

/-- What one call of `save` did: its return value, the destination
content afterwards (`none` = no file at `path`), the directory the temp
file was created in, and the ordered list of phases that ran. -/
structure SaveResult where
  result : Except SaveError Unit
  dest : Option WrittenFile
  tempDir : String
  trace : List Step
deriving DecidableEq, Repr

/-- `FileEncoder::save`, step for step. `dest0` is the destination
content before the call. The temp directory is
`path.parent().unwrap_or_else(|| Path::new("."))`. Each phase either
fails (returning its error, destination untouched) or continues; the
scope-end flush of the `BufWriter` is a `Drop`-driven flush whose error
the source discards (there is no explicit `writer.flush()?`), so
execution continues past it either way — but when it fails, the bytes
still sitting in the buffer never reach the temp file, so the file the
final rename installs is truncated (`complete := env.flushOk`). Only
the final `persist` (atomic rename) replaces the destination content. -/
def FileEncoder.save (self : FileEncoder) (image : DynamicImage)
    (path : FilePath) (env : Env) (dest0 : Option WrittenFile) : SaveResult :=
  let parent_dir := path.parent.getD "."
  if !env.tempOk then
    ⟨.error .tempFileCreation, dest0, parent_dir, [.createTemp]⟩
  else if !env.encodeOk then
    ⟨.error .encode, dest0, parent_dir, [.createTemp, .encode]⟩
  else
    -- inner block ends: BufWriter drop-flush; its error is not observed,
    -- and on failure the buffered tail is lost (temp file left truncated)
    if !env.syncOk then
      ⟨.error .sync, dest0, parent_dir,
        [.createTemp, .encode, .scopeEndFlush, .sync]⟩
    else if !env.persistOk then
      ⟨.error .persist, dest0, parent_dir,
        [.createTemp, .encode, .scopeEndFlush, .sync, .persist]⟩
    else
      ⟨.ok (), some ⟨encodeOutput self image, env.flushOk⟩, parent_dir,
        [.createTemp, .encode, .scopeEndFlush, .sync, .persist]⟩

/-- Modelled from the spec's words, for comparison with the source (the
source itself does `*quality as u8`): the spec describes the Jpg quality
as a 0-100 scale value "clamped to the codec's accepted range". -/
def specClampQuality (q : Nat) : Nat := min q 100

/-- The full phase order of a successful `save`. -/
def fullTrace : List Step :=
  [.createTemp, .encode, .scopeEndFlush, .sync, .persist]

end FileEncoderSpec

namespace FileEncoderSpec

/-- C1: if `save` returns an error, the destination content (or its
absence) is exactly what it was before the call; only the final atomic
rename ever replaces it. -/
theorem save_error_leaves_dest_unchanged (self : FileEncoder)
    (image : DynamicImage) (path : FilePath) (env : Env)
    (dest0 : Option WrittenFile) (e : SaveError)
    (h : (self.save image path env dest0).result = .error e) :
    (self.save image path env dest0).dest = dest0 := by
  obtain ⟨t, en, f, s, p⟩ := env
  cases t <;> cases en <;> cases s <;> cases p <;>
    simp_all [FileEncoder.save]

/-- Witness for C1 at a concrete failing input: with temp-file creation
failing and no prior file, the destination is still absent afterwards. -/
theorem save_error_leaves_dest_unchanged_witness :
    ((FileEncoder.Bmp).save ⟨1, 1, [], .L8, []⟩ ⟨none, none⟩
        ⟨false, true, true, true, true⟩ none).dest = none :=
  save_error_leaves_dest_unchanged FileEncoder.Bmp ⟨1, 1, [], .L8, []⟩
    ⟨none, none⟩ ⟨false, true, true, true, true⟩ none .tempFileCreation
    (by decide)

/-- Counterexample for C2: when the scope-end `BufWriter` drop-flush
fails (its error is discarded) but fsync and the rename succeed, `save`
returns success yet the file installed at the destination is truncated,
not a complete encoding — so "on success path contains a complete
encoding and no partially-written file is ever observable at path" is
false of the program. -/
theorem save_success_truncated_counterexample :
    ((FileEncoder.Bmp).save ⟨1, 1, [⟨9, 9, 9, 9⟩], .Rgba8, [9, 9, 9, 9]⟩
        ⟨some "dir", some "bmp"⟩ ⟨true, true, false, true, true⟩ none).result
      = .ok () ∧
    ((FileEncoder.Bmp).save ⟨1, 1, [⟨9, 9, 9, 9⟩], .Rgba8, [9, 9, 9, 9]⟩
        ⟨some "dir", some "bmp"⟩ ⟨true, true, false, true, true⟩ none).dest
      = some ⟨encodeOutput .Bmp ⟨1, 1, [⟨9, 9, 9, 9⟩], .Rgba8, [9, 9, 9, 9]⟩,
          false⟩ ∧
    ((FileEncoder.Bmp).save ⟨1, 1, [⟨9, 9, 9, 9⟩], .Rgba8, [9, 9, 9, 9]⟩
        ⟨some "dir", some "bmp"⟩ ⟨true, true, false, true, true⟩ none).dest
      ≠ some ⟨encodeOutput .Bmp ⟨1, 1, [⟨9, 9, 9, 9⟩], .Rgba8, [9, 9, 9, 9]⟩,
          true⟩ := by decide

/-- C2 amended: `save` creates its temp file in `path`'s parent
directory (`"."` when the path has no parent) and runs its phases in the
fixed order createTemp, encode, scope-end flush, sync, persist (every
trace is a prefix of that order); on success the destination holds the
atomically installed output of the encode phase, which is the complete
encoding of the image in the active variant's format whenever the
scope-end buffer flush succeeded (a silently failed drop-flush leaves
that installed file truncated); at no point is anything other than the
prior content or that installed file observable at the destination. -/
theorem save_fixed_order_and_flush_dependent_success (self : FileEncoder)
    (image : DynamicImage) (path : FilePath) (env : Env)
    (dest0 : Option WrittenFile) :
    (self.save image path env dest0).tempDir = path.parent.getD "." ∧
    ((self.save image path env dest0).trace).isPrefixOf fullTrace = true ∧
    ((self.save image path env dest0).result = .ok () →
      (self.save image path env dest0).trace = fullTrace ∧
      (self.save image path env dest0).dest
        = some ⟨encodeOutput self image, env.flushOk⟩) ∧
    (env.flushOk = true →
      (self.save image path env dest0).result = .ok () →
      (self.save image path env dest0).dest
        = some ⟨encodeOutput self image, true⟩) ∧
    ((self.save image path env dest0).dest = dest0 ∨
      (self.save image path env dest0).dest
        = some ⟨encodeOutput self image, env.flushOk⟩) := by
  obtain ⟨t, en, f, s, p⟩ := env
  cases t <;> cases en <;> cases s <;> cases p <;>
    refine ⟨rfl, rfl, fun h => ?_, fun hf h => ?_, ?_⟩ <;>
    simp_all [FileEncoder.save, fullTrace]

/-- Witness for C2's amended claim at a concrete input: a successful
save of a 1×1 image as Bmp in the all-ok environment runs the full phase
order and installs the complete encoding. -/
theorem save_fixed_order_and_flush_dependent_success_witness :
    ((FileEncoder.Bmp).save ⟨1, 1, [⟨9, 9, 9, 9⟩], .Rgba8, [9, 9, 9, 9]⟩
        ⟨some "dir", some "bmp"⟩ Env.allOk none).dest
      = some ⟨encodeOutput .Bmp ⟨1, 1, [⟨9, 9, 9, 9⟩], .Rgba8, [9, 9, 9, 9]⟩,
          true⟩ :=
  (save_fixed_order_and_flush_dependent_success FileEncoder.Bmp
    ⟨1, 1, [⟨9, 9, 9, 9⟩], .Rgba8, [9, 9, 9, 9]⟩ ⟨some "dir", some "bmp"⟩
    Env.allOk none).2.2.2.1 (by decide) (by decide)

/-- Counterexample for C3: with configured quality 300, the value `save`
hands to the JPEG codec is `300 as u8 = 44`, not the clamp of 300 to the
0-100 scale (which is 100): the cast truncates mod 256 before any
clamping can happen. -/
theorem jpg_quality_clamp_counterexample :
    ((FileEncoder.Jpg 300).save ⟨1, 1, [⟨1, 2, 3, 4⟩], .Rgba8, [1, 2, 3, 4]⟩
        ⟨none, some "jpg"⟩ Env.allOk none).dest
      = some ⟨.jpeg 44 [1, 2, 3] 1 1 .Rgb8, true⟩ ∧
    specClampQuality 300 = 100 ∧ (44 : Nat) ≠ 100 := by decide

/-- C3 amended: the quality value `save` passes to the JPEG codec is the
configured u32 truncated to 8 bits (`quality as u8`, i.e. quality mod
2^8); any clamping to the codec's accepted 0-100 range happens inside
the codec, after that truncation. -/
theorem jpg_quality_truncated_mod256 (quality : Nat) (image : DynamicImage)
    (path : FilePath) (dest0 : Option WrittenFile) :
    ((FileEncoder.Jpg quality).save image path Env.allOk dest0).dest
      = some ⟨.jpeg (quality % 256) image.to_rgb8.data image.to_rgb8.width
          image.to_rgb8.height .Rgb8, true⟩ := rfl

/-- Counterexample for C4: the buffered writer is not explicitly flushed;
it is flushed by the scope-end drop, whose error is discarded. In an
environment where only that flush fails, `save` still returns success,
so the flush failure is not reported to the caller. -/
theorem save_flush_failure_silent_counterexample :
    (Env.mk true true false true true).flushOk = false ∧
    ((FileEncoder.Bmp).save ⟨1, 1, [], .L8, []⟩ ⟨none, none⟩
        ⟨true, true, false, true, true⟩ none).result = .ok () := by decide

/-- C4 amended: temp-file creation, encode, fsync and persist failures
are each surfaced to the caller as an error identifying that phase; the
buffered writer is flushed implicitly when its scope ends before the
fsync, and an error from that implicit flush is discarded rather than
reported (the return value of `save` never depends on it, even though
the installed file does). -/
theorem save_surfaces_phase_failures (self : FileEncoder)
    (image : DynamicImage) (path : FilePath) (dest0 : Option WrittenFile)
    (t en f s p : Bool) :
    (t = false →
      (self.save image path ⟨t, en, f, s, p⟩ dest0).result
        = .error .tempFileCreation) ∧
    (t = true → en = false →
      (self.save image path ⟨t, en, f, s, p⟩ dest0).result = .error .encode) ∧
    (t = true → en = true → s = false →
      (self.save image path ⟨t, en, f, s, p⟩ dest0).result = .error .sync) ∧
    (t = true → en = true → s = true → p = false →
      (self.save image path ⟨t, en, f, s, p⟩ dest0).result = .error .persist) ∧
    (t = true → en = true → s = true → p = true →
      (self.save image path ⟨t, en, f, s, p⟩ dest0).result = .ok ()) ∧
    (self.save image path ⟨t, en, f, s, p⟩ dest0).result
      = (self.save image path ⟨t, en, true, s, p⟩ dest0).result := by
  cases t <;> cases en <;> cases s <;> cases p <;>
    simp [FileEncoder.save]

/-- Witness for C4's amended claim at a concrete input: an encode
failure surfaces as the encode error. -/
theorem save_surfaces_phase_failures_witness :
    ((FileEncoder.WebP).save ⟨1, 1, [], .L8, []⟩ ⟨none, none⟩
        ⟨true, false, true, true, true⟩ none).result = .error .encode :=
  (save_surfaces_phase_failures FileEncoder.WebP ⟨1, 1, [], .L8, []⟩
    ⟨none, none⟩ none true false true true true).2.1 rfl rfl

/-- C5: extension round-trip. For every encoder variant (any payload)
and any parent directory, `matching_variant` on a path whose extension
is the variant's own `ext()` and the singleton candidate list returns
that variant. -/
theorem matching_variant_roundtrip (v : FileEncoder) (parent : Option String) :
    FileEncoder.matching_variant ⟨parent, some v.ext⟩ [v] = v := by
  cases v <;> rfl

/-- C6: fallback. Whenever no candidate's canonical extension equals the
path's normalized extension (in particular when the path has no
extension, whose normalized form "" matches no variant),
`matching_variant` returns `Png { compressionlevel: Default }`. -/
theorem matching_variant_fallback (path : FilePath)
    (variants : List FileEncoder)
    (h : ∀ v ∈ variants, v.ext ≠ normExt path) :
    FileEncoder.matching_variant path variants = .Png .Default := by
  have hn : variants.find? (fun v => v.ext == normExt path) = none :=
    List.find?_eq_none.mpr (fun v hv => by simpa using h v hv)
  simp [FileEncoder.matching_variant, hn]

/-- Witness for C6 at a concrete input: a path with an unknown extension
and candidates [Jpg, Bmp] falls back to Png/Default (the spec's
"Fallback default" and "No-extension fallback" test cases). -/
theorem matching_variant_fallback_witness :
    FileEncoder.matching_variant ⟨none, some "unknownext"⟩
      [.Jpg 1, .Bmp] = .Png .Default ∧
    FileEncoder.matching_variant ⟨none, none⟩ [.Jpg 1] = .Png .Default :=
  ⟨matching_variant_fallback ⟨none, some "unknownext"⟩ [.Jpg 1, .Bmp]
      (by decide),
    matching_variant_fallback ⟨none, none⟩ [.Jpg 1] (by decide)⟩

/-- C7: extension normalization. The extension is lowercased and "jpeg"
is rewritten to "jpg" before matching, so for every candidate list and
parent, a path with extension "JPEG", "jpeg" or "JPG" resolves exactly
as the same path with extension "jpg". -/
theorem matching_variant_jpeg_normalization (parent : Option String)
    (variants : List FileEncoder) :
    FileEncoder.matching_variant ⟨parent, some "JPEG"⟩ variants
        = FileEncoder.matching_variant ⟨parent, some "jpg"⟩ variants ∧
    FileEncoder.matching_variant ⟨parent, some "jpeg"⟩ variants
        = FileEncoder.matching_variant ⟨parent, some "jpg"⟩ variants ∧
    FileEncoder.matching_variant ⟨parent, some "JPG"⟩ variants
        = FileEncoder.matching_variant ⟨parent, some "jpg"⟩ variants :=
  ⟨rfl, rfl, rfl⟩

/-- C8: first match wins. `matching_variant` is a pure function of its
arguments, and when two or more candidates match the path's normalized
extension, the returned value is the first matching candidate in list
order (the one `find?` yields). -/
theorem matching_variant_first_match (path : FilePath)
    (variants : List FileEncoder)
    (h : 2 ≤ (variants.filter (fun v => v.ext == normExt path)).length) :
    variants.find? (fun v => v.ext == normExt path)
      = some (FileEncoder.matching_variant path variants) := by
  cases hf : variants.find? (fun v => v.ext == normExt path) with
  | none =>
      have hnil : variants.filter (fun v => v.ext == normExt path) = [] :=
        List.filter_eq_nil_iff.mpr (List.find?_eq_none.mp hf)
      rw [hnil] at h
      simp at h
  | some v =>
      simp [FileEncoder.matching_variant, hf]

/-- Witness for C8 at a concrete input: with two Jpg candidates both
matching extension "jpg", the first one is returned. -/
theorem matching_variant_first_match_witness :
    FileEncoder.matching_variant ⟨none, some "jpg"⟩ [.Jpg 1, .Jpg 2]
        = .Jpg 1 ∧
    2 ≤ (([FileEncoder.Jpg 1, .Jpg 2]).filter
        (fun v => v.ext == normExt ⟨none, some "jpg"⟩)).length :=
  ⟨by
    have hfm := matching_variant_first_match ⟨none, some "jpg"⟩
      [.Jpg 1, .Jpg 2] (by decide)
    have hfind : ([FileEncoder.Jpg 1, .Jpg 2]).find?
        (fun v => v.ext == normExt ⟨none, some "jpg"⟩) = some (.Jpg 1) := by
      decide
    rw [hfind] at hfm
    exact (Option.some_inj.mp hfm).symm,
    by decide⟩

/-- C9: the Jpg arm of `save` encodes exactly the 8-bit RGB conversion
of the input (alpha dropped, dimensions preserved), and the Png arm
encodes the image's own raw bytes with its native color type and
dimensions, mapping CompressionLevel Best/Default/Fast to the codec's
Best/Default/Fast compression types. -/
theorem save_jpg_png_encode_arms (q : Nat) (image : DynamicImage)
    (path : FilePath) (dest0 : Option WrittenFile) :
    ((FileEncoder.Jpg q).save image path Env.allOk dest0).dest
      = some ⟨.jpeg (q % 256) image.to_rgb8.data image.to_rgb8.width
          image.to_rgb8.height .Rgb8, true⟩ ∧
    image.to_rgb8.width = image.width ∧
    image.to_rgb8.height = image.height ∧
    (DynamicImage.mk image.width image.height
        (image.pixels.map fun px => ⟨px.r, px.g, px.b, 0⟩)
        image.color image.bytes).to_rgb8 = image.to_rgb8 ∧
    ((FileEncoder.Png .Best).save image path Env.allOk dest0).dest
      = some ⟨.png .Best FilterType.default image.bytes image.width
          image.height image.color, true⟩ ∧
    ((FileEncoder.Png .Default).save image path Env.allOk dest0).dest
      = some ⟨.png .Default FilterType.default image.bytes image.width
          image.height image.color, true⟩ ∧
    ((FileEncoder.Png .Fast).save image path Env.allOk dest0).dest
      = some ⟨.png .Fast FilterType.default image.bytes image.width
          image.height image.color, true⟩ := by
  refine ⟨rfl, rfl, rfl, ?_, rfl, rfl, rfl⟩
  simp [DynamicImage.to_rgb8, List.flatMap_map]

/-- C10: `matching_variant` always returns either an element of the
candidate list or `Png { compressionlevel: Default }`; on the empty
candidate list it returns `Png { compressionlevel: Default }` whatever
the path. -/
theorem matching_variant_closure (path : FilePath)
    (variants : List FileEncoder) :
    (FileEncoder.matching_variant path variants ∈ variants ∨
      FileEncoder.matching_variant path variants
        = .Png .Default) ∧
    FileEncoder.matching_variant path [] = .Png .Default := by
  refine ⟨?_, rfl⟩
  cases hf : variants.find? (fun v => v.ext == normExt path) with
  | none => exact Or.inr (by simp [FileEncoder.matching_variant, hf])
  | some v =>
      left
      have hm := List.mem_of_find?_eq_some hf
      simpa [FileEncoder.matching_variant, hf] using hm

end FileEncoderSpec
